import Mathlib

/-!
Verification development for the opentune control plane
(`backend/app/core/repo_service.py`, `backend/app/core/security.py`,
`backend/app/schemas/policy.py`, `backend/app/api/routes/agents.py`).

The Python source is shallowly embedded: pure helpers become Lean
functions; the database session becomes explicit state passing over a
`DB` record; raised exceptions become `Except`/`Option` results; the
external `git` binary and the `bcrypt` library are modelled as explicit
environments describing the outcome of each external call.
-/

deriving instance DecidableEq for Except

namespace OpenTune

/-! ## Filesystem / working-copy model

A working copy (`REPOS_BASE_DIR / repo_id`) is modelled as the commit
`git rev-parse HEAD` reports, the current branch, and the list of files
in the tree as `(repo-relative path, contents)` pairs.  Directories are
implied by the files under them (git does not track empty directories).
Absence of the directory is `Option.none` at the call sites.
-/

structure RepoDir where
  commit : String
  branch : String
  files : List (String × String)
deriving DecidableEq, Repr

/-- Outcome of one `subprocess.run` git invocation:
returncode 0, nonzero returncode with captured stderr, or
`subprocess.TimeoutExpired`. -/
inductive CmdOutcome where
  | ok : CmdOutcome
  | fail : String → CmdOutcome
  | timeout : CmdOutcome
deriving DecidableEq, Repr

/-- Behaviour of the external `git` binary during one
`clone_or_update_repo` call.  `cloneResult` is the checkout `git clone
--branch branch url` produces when it succeeds; `afterCheckout` is the
working copy after a successful `git checkout branch` (its commit is the
local tip of that branch, read by `rev-parse HEAD` before the reset);
`afterReset` is the working copy after a successful
`git reset --hard origin/branch` (its commit is the remote tip).
External contract assumed of git: a clone that fails with a nonzero
exit (network, auth, invalid URL) removes the target directory it
created before dying, so that failure leg leaves the filesystem without
a checkout.  A clone that exceeds the `subprocess.run` timeout is a
different matter: the interpreter kills the git process, its cleanup
never runs, and whatever had been transferred stays on disk —
`cloneTimeoutLeft` is that left-behind directory state (`none` when the
kill landed before the target directory was created, `some` partial
state otherwise; its `commit`/`branch` fields are whatever a later
`rev-parse` would observe in the partial clone).  `git rev-parse HEAD`
on an intact checkout succeeds and reports its `commit` field. -/
structure GitEnv where
  cloneOutcome : CmdOutcome
  cloneResult : RepoDir
  cloneTimeoutLeft : Option RepoDir
  fetchOutcome : CmdOutcome
  checkoutOutcome : CmdOutcome
  afterCheckout : RepoDir
  resetOutcome : CmdOutcome
  afterReset : RepoDir
deriving DecidableEq, Repr

/-- Embedding of `repo_service.clone_or_update_repo`.  The state of the
repo-id-scoped directory is threaded explicitly (`Option RepoDir`);
the result is the new directory state together with either the returned
`(commit_hash, was_updated)` pair or the `RepoServiceError` message.
The `except` paths of the source perform no filesystem cleanup (the
only `rmtree` of the module is in `delete_repo`), so the clone-timeout
leg retains whatever the killed clone left on disk. -/
def clone_or_update_repo (env : GitEnv) (fs : Option RepoDir) :
    Option RepoDir × Except String (String × Bool) :=
  match fs with
  | none =>
    -- clone branch: `git clone --quiet --branch branch url repo_path`
    match env.cloneOutcome with
    | .ok => (some env.cloneResult, .ok (env.cloneResult.commit, true))
    | .fail e => (none, .error ("Git clone failed: " ++ e))
    | .timeout => (env.cloneTimeoutLeft, .error "Git operation timed out")
  | some old =>
    -- update branch: fetch --all, checkout, rev-parse, reset --hard, rev-parse
    match env.fetchOutcome with
    | .fail e => (some old, .error ("Git fetch failed: " ++ e))
    | .timeout => (some old, .error "Git operation timed out")
    | .ok =>
      match env.checkoutOutcome with
      | .fail e => (some old, .error ("Git checkout failed: " ++ e))
      | .timeout => (some old, .error "Git operation timed out")
      | .ok =>
        let old_commit := env.afterCheckout.commit
        match env.resetOutcome with
        | .fail e => (some env.afterCheckout, .error ("Git reset failed: " ++ e))
        | .timeout => (some env.afterCheckout, .error "Git operation timed out")
        | .ok =>
          let new_commit := env.afterReset.commit
          (some env.afterReset, .ok (new_commit, old_commit != new_commit))

/-- Result record of `repo_service.get_repo_status`. -/
structure RepoStatus where
  repo_id : Nat
  commit : String
  branch : String
  last_updated : Nat
  path : String
deriving DecidableEq, Repr

/-- The directory `REPOS_BASE_DIR / str(repo_id)`. -/
def repoPathStr (repo_id : Nat) : String :=
  "/app/data/repos/" ++ toString repo_id

/-- Embedding of `repo_service.get_repo_status`: `None` when the
repo-id directory is absent, otherwise a status snapshot built from
`rev-parse HEAD`, `rev-parse --abbrev-ref HEAD` and the `.git` mtime
(modelled as the `mtime` argument). -/
def get_repo_status (repo_id : Nat) (fs : Option RepoDir) (mtime : Nat) :
    Option RepoStatus :=
  match fs with
  | none => none
  | some d =>
    some { repo_id := repo_id, commit := d.commit, branch := d.branch,
           last_updated := mtime, path := repoPathStr repo_id }

/-! ## Packaging model (`create_package_zip`)

A ZIP archive is the list of its entries in writing order, each an
`(arcname, contents)` pair.  All `zf.write` calls in the source use
arcnames relative to the working-copy root, which is exactly the path
stored in `RepoDir.files`, so an added file becomes its `files` pair. -/

abbrev ZipEntries := List (String × String)

/-- Arcnames of the entries of an archive, in writing order. -/
def entryNames (es : ZipEntries) : List String := es.map Prod.fst

/-- Split a character list at `/` (the splitter behind `Path.parts`
for the repo-relative paths used here). -/
def splitSlash : List Char → List (List Char)
  | [] => [[]]
  | c :: rest =>
    match splitSlash rest with
    | [] => [[]]
    | part :: parts =>
      if c = '/' then [] :: part :: parts else (c :: part) :: parts

/-- Path components, `Path.parts` style (paths use `/`). -/
def pathParts (p : String) : List String :=
  (splitSlash p.data).map String.mk

/-- Python's `".git" in item.parts`. -/
def hasGitPart (p : String) : Bool := (pathParts p).contains ".git"

/-- Whether `p` lies strictly under directory `dir` (both repo-relative). -/
def isUnder (dir p : String) : Bool :=
  List.isPrefixOf (dir.data ++ ['/']) p.data

/-- Python's `v.endswith(suffix)`. -/
def strEndsWith (v suffix : String) : Bool :=
  List.isSuffixOf suffix.data v.data

/-- Join path components back with `/`. -/
def joinSlash : List (List Char) → List Char
  | [] => []
  | [part] => part
  | part :: parts => part ++ '/' :: joinSlash parts

/-- Python's `Path(p).parent`, repo-relatively: the repository root is `""`. -/
def parentDir (p : String) : String :=
  String.mk (joinSlash (splitSlash p.data).dropLast)

/-- Python's `(repo_path / config_path).exists()`: the path is a file of the
tree, or a directory implied by a file under it. -/
def pathExists (files : List (String × String)) (p : String) : Bool :=
  files.any (fun f => f.1 == p || isUnder p f.1)

/-- Embedding of `_add_directory_to_zip zf (repo_path / dir) repo_path` with
`exclude_git = True`: every file under `dir`, except paths with a
`.git` component, appended at its repo-relative arcname. -/
def add_directory_to_zip (files : List (String × String)) (dir : String) :
    ZipEntries :=
  files.filter (fun f => isUnder dir f.1 && !hasGitPart f.1)

/-- Full-repo variant, `_add_directory_to_zip zf repo_path repo_path`:
`rglob` from the root picks up every file of the tree. -/
def add_full_repo_to_zip (files : List (String × String)) : ZipEntries :=
  files.filter (fun f => !hasGitPart f.1)

/-- The fixed list `related_dirs = ["baselines", "common", "modules", "lib"]`. -/
def related_dirs : List String := ["baselines", "common", "modules", "lib"]

/-- The `config_dir.glob("*.ps1")` loop of `_add_related_directories`:
each `.ps1` file directly inside the config file's directory is appended
unless its arcname is already among `zf.filelist`. -/
def add_colocated_scripts (files : List (String × String)) (cfgDir : String)
    (acc : ZipEntries) : ZipEntries :=
  files.foldl
    (fun acc f =>
      if parentDir f.1 == cfgDir && strEndsWith f.1 ".ps1" &&
          !(acc.any (fun e => e.1 == f.1)) then
        acc ++ [f]
      else acc)
    acc

/-- The `for dirname in related_dirs` loop of
`_add_related_directories`: each conventional support directory that
exists is added recursively.  A support directory "exists and is a
directory" iff some file of the tree lies under it. -/
def add_support_dirs (files : List (String × String)) (dirs : List String)
    (acc : ZipEntries) : ZipEntries :=
  dirs.foldl
    (fun acc d =>
      if files.any (fun f => isUnder d f.1) then
        acc ++ add_directory_to_zip files d
      else acc)
    acc

/-- Embedding of `_add_related_directories`: each conventional support
directory that exists is added recursively, then the `.ps1` files
colocated with `config_path` are added de-duplicated; the config file's
parent directory always exists at the call sites (it contains the
config path). -/
def add_related_directories (files : List (String × String))
    (config_path : String) (acc : ZipEntries) : ZipEntries :=
  add_colocated_scripts files (parentDir config_path)
    (add_support_dirs files related_dirs acc)

/-- The `_opentune_meta.txt` manifest body written by `zf.writestr`. -/
def metaContent (commit packaged_at config_path : String) : String :=
  "commit=" ++ commit ++ "\npackaged_at=" ++ packaged_at ++
    "\nconfig_path=" ++ config_path ++ "\n"

/-- The fixed manifest arcname. -/
def metaName : String := "_opentune_meta.txt"

/-- The payload-writing part of `create_package_zip`: every entry the
`with zipfile...` block writes before the manifest `writestr`. -/
def package_payload (d : RepoDir) (config_path : String)
    (include_full_repo : Bool) : Except String ZipEntries :=
  if include_full_repo then
    .ok (add_full_repo_to_zip d.files)
  else if !pathExists d.files config_path then
    .error ("Config path not found: " ++ config_path)
  else
    match d.files.find? (fun f => f.1 == config_path) with
    | some cf =>
      -- config_full_path.is_file(): add it, then related dirs for .ps1
      if strEndsWith config_path ".ps1" then
        .ok (add_related_directories d.files config_path [cf])
      else
        .ok [cf]
    | none =>
      -- a directory: add it recursively, plus the related directories
      let acc := add_directory_to_zip d.files config_path
      .ok (add_related_directories d.files config_path acc)

/-- Embedding of `repo_service.create_package_zip`.  `fs` is the state
of the repo-id directory (`none` when never synced), `now` the
`datetime.utcnow().isoformat()` build timestamp.  The result is the
archive's entry list and the resolved commit hash, or the
`RepoServiceError` message.  (The byte serialization of the ZIP and the
SHA-256 `package_hash` over those bytes are not reflected: no claim
mentions them.) -/
def create_package_zip (fs : Option RepoDir) (config_path : String)
    (now : String) (include_full_repo : Bool) :
    Except String (ZipEntries × String) :=
  match fs with
  | none => .error "Repository not found locally. Run sync first."
  | some d =>
    (package_payload d config_path include_full_repo).map
      (fun es => (es ++ [(metaName, metaContent d.commit now config_path)],
                  d.commit))

/-! ## Token hashing model (`security.py`)

The `bcrypt` library is an external capability.  Its behaviour is an
explicit environment: `hashpw password salt` is the encoded hash string
(`bcrypt.hashpw(token_bytes, bcrypt.gensalt(rounds=12))`, the salt
abstracted as a `String` argument), and `checkpw password storedHash`
returns `some b` when the C routine returns, `none` when it raises
(malformed stored hash).  The adaptive-hash contract (a hash matches
exactly the password that produced it) enters theorems as explicit
hypotheses about this environment. -/

structure Bcrypt where
  hashpw : String → String → String
  checkpw : String → String → Option Bool

/-- Embedding of `security.hash_token` (the salt drawn by
`bcrypt.gensalt(rounds=12)` is passed explicitly). -/
def hash_token (bc : Bcrypt) (token : String) (salt : String) : String :=
  bc.hashpw token salt

/-- Embedding of `security.verify_token`: `bcrypt.checkpw` inside
`try/except`, any exception giving `False`. -/
def verify_token (bc : Bcrypt) (token : String) (token_hash : String) : Bool :=
  match bc.checkpw token token_hash with
  | some b => b
  | none => false

/-! ## Policy schema validators (`schemas/policy.py`) -/

/-- Scan for two consecutive dots. -/
def hasDotDotChars : List Char → Bool
  | '.' :: '.' :: _ => true
  | _ :: rest => hasDotDotChars rest
  | [] => false

/-- Python's `".." in v` substring test. -/
def containsDotDot (v : String) : Bool := hasDotDotChars v.data

/-- Python's `v.lstrip("/")`: drop every leading `/`. -/
def lstripSlashes (v : String) : String :=
  String.mk (v.data.dropWhile (fun c => c == '/'))

/-- Embedding of `PolicyBase.validate_config_path`: reject any value
containing `..`; otherwise store it with leading slashes removed.
`.error` is the `ValueError` pydantic turns into a validation failure
before the request reaches any handler (no filesystem is touched: the
validator is a pure string check). -/
def validate_config_path (v : String) : Except String String :=
  if containsDotDot v then
    .error "config_path cannot contain .. (path traversal)"
  else
    .ok (lstripSlashes v)

/-- Embedding of `PolicyUpdate.validate_config_path`: identical, with
`None` passed through (field absent from a partial update). -/
def validate_config_path_update (v : Option String) :
    Except String (Option String) :=
  match v with
  | none => .ok none
  | some s =>
    if containsDotDot s then
      .error "config_path cannot contain .. (path traversal)"
    else
      .ok (some (lstripSlashes s))

/-! ## Data model and protocol endpoints (`models/`, `routes/agents.py`)

Timestamps (`datetime.utcnow()`) are abstract instants modelled as
`Nat`; each request handler receives the instant `now` at which it runs
(the handlers read `utcnow()` once per mutation site and those reads
fall within one request).  The SQL store is a `DB` record of entity
lists; `session.get(Model, id)` is a `find?` on the id and a committed
mutation of a fetched row is a `map` replacing the row with that id. -/

structure Node where
  id : Nat
  name : String
  node_token_hash : String
  assigned_policy_id : Option Nat
  last_seen_at : Option Nat
  last_status : Option String
deriving DecidableEq, Repr

structure Policy where
  id : Nat
  name : String
  git_repository_id : Nat
  branch : Option String
  config_path : String
deriving DecidableEq, Repr

structure GitRepository where
  id : Nat
  name : String
  url : String
  default_branch : String
deriving DecidableEq, Repr

structure ReconciliationRun where
  id : Nat
  node_id : Nat
  policy_id : Nat
  git_commit : Option String
  started_at : Nat
  finished_at : Option Nat
  status : String
  summary : Option String
deriving DecidableEq, Repr

structure DB where
  nodes : List Node
  policies : List Policy
  repos : List GitRepository
  runs : List ReconciliationRun
deriving DecidableEq, Repr

/-- The `RunStatus` enum of `schemas/run.py` (pydantic rejects any
other status string before the handler runs). -/
inductive RunStatus where
  | success | failed | in_progress | skipped
deriving DecidableEq, Repr

/-- The `.value` string of the enum member. -/
def RunStatus.value : RunStatus → String
  | .success => "success"
  | .failed => "failed"
  | .in_progress => "in_progress"
  | .skipped => "skipped"

/-- The `RunReport` request body. -/
structure RunReport where
  policy_id : Nat
  git_commit : Option String
  status : RunStatus
  summary : Option String
  started_at : Option Nat
  finished_at : Option Nat
deriving DecidableEq, Repr

/-- The `HTTPException`s raised by the agent routes. -/
inductive HttpError where
  | notFound : String → HttpError
  | unauthorized : String → HttpError
  | badRequest : String → HttpError
deriving DecidableEq, Repr

/-- Embedding of `session.get(Model, id)` on each table. -/
def DB.getNode (db : DB) (id : Nat) : Option Node :=
  db.nodes.find? (fun n => n.id == id)

def DB.getPolicy (db : DB) (id : Nat) : Option Policy :=
  db.policies.find? (fun p => p.id == id)

def DB.getRepo (db : DB) (id : Nat) : Option GitRepository :=
  db.repos.find? (fun r => r.id == id)

/-- Committing a mutation of a fetched `Node` row: replace the row
carrying that id. -/
def DB.setNode (db : DB) (n : Node) : DB :=
  { db with nodes := db.nodes.map (fun m => if m.id == n.id then n else m) }

/-- Autoincrement primary key assigned to the next inserted run (the
store gives a fresh id strictly above all existing ones). -/
def DB.nextRunId (db : DB) : Nat :=
  db.runs.foldl (fun m r => max m r.id) 0 + 1

/-- Embedding of `authenticate_node`: look the node up by path id, 404
when absent, verify the presented `X-Node-Token` against the stored
hash, 401 when it does not match. -/
def authenticate_node (bc : Bcrypt) (node_id : Nat) (token : String)
    (db : DB) : Except HttpError Node :=
  match db.getNode node_id with
  | none =>
    .error (.notFound ("Node with id " ++ toString node_id ++ " not found"))
  | some node =>
    if verify_token bc token node.node_token_hash then
      .ok node
    else
      .error (.unauthorized "Invalid node token")

/-- Python truthiness of `node.assigned_policy_id`
(`if not node.assigned_policy_id`): `None` and `0` are both falsy. -/
def truthyId : Option Nat → Option Nat
  | none => none
  | some 0 => none
  | some n => some n

/-- Python's `policy.branch or repo.default_branch`: `None` and the
empty string are both falsy. -/
def pyOrStr (a : Option String) (b : String) : String :=
  match a with
  | none => b
  | some s => if s == "" then b else s

/-- The `repository` dict of `DesiredStateResponse`. -/
structure RepoSummary where
  id : Nat
  name : String
  branch : String
deriving DecidableEq, Repr

structure DesiredStateResponse where
  policy_assigned : Bool
  policy_id : Option Nat := none
  policy_name : Option String := none
  repository : Option RepoSummary := none
  config_path : Option String := none
  package_url : Option String := none
deriving DecidableEq, Repr

/-- The `package_url` built for an assigned node. -/
def packageUrl (server_url : String) (node_id : Nat) : String :=
  server_url ++ "/api/v1/agents/nodes/" ++ toString node_id ++ "/package"

/-- Embedding of `GET /agents/nodes/id/desired-state`.  The handler
authenticates, commits `last_seen_at := now`, then walks
node → policy → repository; any broken link returns
`policy_assigned = false` with every optional field at its `None`
default, as a 200 response, never an error. -/
def get_desired_state (bc : Bcrypt) (node_id : Nat) (token : String)
    (now : Nat) (server_url : String) (db : DB) :
    Except HttpError (DB × DesiredStateResponse) :=
  match authenticate_node bc node_id token db with
  | .error e => .error e
  | .ok node =>
    let db1 := db.setNode { node with last_seen_at := some now }
    match truthyId node.assigned_policy_id with
    | none => .ok (db1, { policy_assigned := false })
    | some pid =>
      match db.getPolicy pid with
      | none => .ok (db1, { policy_assigned := false })
      | some policy =>
        match db.getRepo policy.git_repository_id with
        | none => .ok (db1, { policy_assigned := false })
        | some repo =>
          .ok (db1,
            { policy_assigned := true,
              policy_id := some policy.id,
              policy_name := some policy.name,
              repository := some
                { id := repo.id, name := repo.name,
                  branch := pyOrStr policy.branch repo.default_branch },
              config_path := some policy.config_path,
              package_url := some (packageUrl server_url node_id) })

structure RunReportResponse where
  ok : Bool
  run_id : Nat
  message : String
deriving DecidableEq, Repr

/-- Embedding of `POST /agents/nodes/id/runs` (`report_run`).  After
authentication the referenced policy must currently exist (400
otherwise, and the never-committed session leaves the store unchanged);
then one immutable run row is inserted with `started_at` defaulting to
`now` and `finished_at := now`, and the node row's `last_seen_at` and
`last_status` are committed.  The handler never consults the node's own
`assigned_policy_id`. -/
def report_run (bc : Bcrypt) (node_id : Nat) (run : RunReport)
    (token : String) (now : Nat) (db : DB) :
    Except HttpError (DB × RunReportResponse) :=
  match authenticate_node bc node_id token db with
  | .error e => .error e
  | .ok node =>
    match db.getPolicy run.policy_id with
    | none =>
      .error (.badRequest
        ("Policy with id " ++ toString run.policy_id ++ " not found"))
    | some _ =>
      let started_at := run.started_at.getD now
      let rec_run : ReconciliationRun :=
        { id := db.nextRunId,
          node_id := node.id,
          policy_id := run.policy_id,
          git_commit := run.git_commit,
          started_at := started_at,
          finished_at := some now,
          status := run.status.value,
          summary := run.summary }
      let node1 :=
        { node with last_seen_at := some now,
                    last_status := some run.status.value }
      let db1 := { db.setNode node1 with runs := db.runs ++ [rec_run] }
      .ok (db1,
        { ok := true, run_id := rec_run.id,
          message := "Run recorded with status: " ++ rec_run.status })

structure HeartbeatResponse where
  ok : Bool
  server_time : Nat
  node_id : Nat
  node_name : String
deriving DecidableEq, Repr

/-- Embedding of `POST /agents/nodes/id/heartbeat`: authenticate,
commit `last_seen_at := now`, answer with the server time (the
handler's two `utcnow()` reads fall in the same request instant). -/
def heartbeat (bc : Bcrypt) (node_id : Nat) (token : String) (now : Nat)
    (db : DB) : Except HttpError (DB × HeartbeatResponse) :=
  match authenticate_node bc node_id token db with
  | .error e => .error e
  | .ok node =>
    let db1 := db.setNode { node with last_seen_at := some now }
    .ok (db1,
      { ok := true, server_time := now, node_id := node.id,
        node_name := node.name })

/-! ## Concrete fixtures used by witnesses -/

/-- A trivial working copy, used to fill `GitEnv` fields whose value a
witness never consults. -/
def d0 : RepoDir := { commit := "c0", branch := "main", files := [] }

/-- Environment of a clone attempt that fails with a git diagnostic
(nonzero exit: git removes its target before dying). -/
def envCloneFail : GitEnv :=
  { cloneOutcome := .fail "fatal: repository not found",
    cloneResult := d0, cloneTimeoutLeft := none, fetchOutcome := .ok,
    checkoutOutcome := .ok, afterCheckout := d0, resetOutcome := .ok,
    afterReset := d0 }

/-- A partially transferred target directory as a killed clone leaves
it: the repository objects arrived but the working tree was never
checked out, so a later `rev-parse HEAD` reports the fetched tip while
the tree is empty. -/
def dPartial : RepoDir :=
  { commit := "c1", branch := "main", files := [(".git/HEAD", "ref: refs/heads/main")] }

/-- Environment of a clone attempt killed by the 300 s timeout after
the target directory had been created. -/
def envCloneTimeout : GitEnv :=
  { cloneOutcome := .timeout, cloneResult := d0,
    cloneTimeoutLeft := some dPartial, fetchOutcome := .ok,
    checkoutOutcome := .ok, afterCheckout := d0, resetOutcome := .ok,
    afterReset := d0 }

/-- Working copy state before an update sync, at commit `"c1"`. -/
def dOld : RepoDir := { commit := "c1", branch := "main", files := [("a.txt", "A")] }

/-- Working copy after the remote moved to commit `"c2"`. -/
def dNew : RepoDir := { commit := "c2", branch := "main", files := [("a.txt", "B")] }

/-- Update sync against a remote that moved from `"c1"` to `"c2"`:
checkout leaves the local branch at `"c1"`, the hard reset lands on
`"c2"`. -/
def envMoved : GitEnv :=
  { cloneOutcome := .ok, cloneResult := d0, cloneTimeoutLeft := none,
    fetchOutcome := .ok, checkoutOutcome := .ok, afterCheckout := dOld,
    resetOutcome := .ok, afterReset := dNew }

/-- Update sync against an unchanged remote at commit `"c2"`. -/
def envSame : GitEnv :=
  { cloneOutcome := .ok, cloneResult := d0, cloneTimeoutLeft := none,
    fetchOutcome := .ok, checkoutOutcome := .ok, afterCheckout := dNew,
    resetOutcome := .ok, afterReset := dNew }

/-- A toy bcrypt environment satisfying the adaptive-hash contract:
the hash of `t` is `'#'` prepended to `t`, and `checkpw` raises
(returns `none`) on any stored value not starting with `'#'`. -/
def bc0 : Bcrypt where
  hashpw := fun t _ => String.mk ('#' :: t.data)
  checkpw := fun presented stored =>
    match stored.data with
    | '#' :: rest => some (rest == presented.data)
    | _ => none

/-- A node whose stored hash matches token `"tok"` under `bc0`. -/
def nodeW : Node :=
  { id := 1, name := "web01", node_token_hash := "#tok",
    assigned_policy_id := some 2, last_seen_at := none,
    last_status := some "registered" }

/-- A policy with a branch override. -/
def polW : Policy :=
  { id := 2, name := "baseline", git_repository_id := 3,
    branch := some "prod", config_path := "nodes/a.ps1" }

def repoW : GitRepository :=
  { id := 3, name := "cfg", url := "https://example.com/cfg.git",
    default_branch := "main" }

def dbW : DB :=
  { nodes := [nodeW], policies := [polW], repos := [repoW], runs := [] }

/-- A run report with no `started_at`, referencing policy 2. -/
def runW : RunReport :=
  { policy_id := 2, git_commit := some "a1b2c3d", status := .success,
    summary := some "all good", started_at := none, finished_at := none }

/-- A node with no assigned policy, hash matching `"tok2"` under `bc0`. -/
def nodeU : Node :=
  { id := 4, name := "web02", node_token_hash := "#tok2",
    assigned_policy_id := none, last_seen_at := some 1,
    last_status := some "failed" }

def dbU : DB :=
  { nodes := [nodeU], policies := [polW], repos := [repoW], runs := [] }

/-- A policy whose branch override is present but empty. -/
def polE : Policy :=
  { id := 2, name := "pol", git_repository_id := 3,
    branch := some "", config_path := "nodes/a.ps1" }

def dbE : DB :=
  { nodes := [nodeW], policies := [polE], repos := [repoW], runs := [] }

/-- A working copy with a `.ps1` node config, a colocated script, a
`baselines/` support directory and VCS metadata. -/
def dPack : RepoDir :=
  { commit := "c1", branch := "main",
    files := [("nodes/a.ps1", "A"), ("nodes/b.ps1", "B"),
              ("baselines/base.ps1", "C"), ("baselines/sub/x.txt", "D"),
              ("common/y.psm1", "E"), ("README.md", "F"),
              (".git/config", "G")] }

/-- A working copy containing a payload file that shadows the manifest
name. -/
def dMetaClash : RepoDir :=
  { commit := "c9", branch := "main",
    files := [("_opentune_meta.txt", "payload file")] }

/-- The archive a full-mode build of `dPack` produces for config path
`"z"` at timestamp `"T"`. -/
def esFullW : ZipEntries :=
  [("nodes/a.ps1", "A"), ("nodes/b.ps1", "B"), ("baselines/base.ps1", "C"),
   ("baselines/sub/x.txt", "D"), ("common/y.psm1", "E"), ("README.md", "F"),
   (metaName, metaContent "c1" "T" "z")]

theorem bc0_roundtrip : ∀ t s : String,
    bc0.checkpw t (bc0.hashpw t s) = some true := by
  intro t s
  simp [bc0]

theorem bc0_distinct : ∀ t s u : String, u ≠ t →
    bc0.checkpw u (bc0.hashpw t s) = some false := by
  intro t s u hne
  simp only [bc0, beq_eq_false_iff_ne, ne_eq, Option.some.injEq,
    decide_eq_false_iff_not]
  intro hdata
  exact hne (String.ext hdata.symm)

/-! ## Claim theorems -/

/-- C1.  On the nonzero-exit failure legs (network, auth, invalid URL)
a failed clone raises a `RepoServiceError` carrying the git diagnostic,
leaves the repo-id directory absent, and a subsequent `get_repo_status`
reports absent — but the claim fails on its timeout leg, which the code
does not honour: when the 300 s clone timeout expires, `subprocess.run`
kills git, git's own die-path cleanup never runs, and the `except`
path of `clone_or_update_repo` performs no cleanup of its own, so the
partially transferred directory is retained.  Evaluated here at a
timed-out clone that had already created its target directory: the
error is raised, yet the directory is not absent. -/
theorem clone_timeout_retains_partial_state :
    clone_or_update_repo envCloneFail none =
      (none, .error ("Git clone failed: " ++ "fatal: repository not found")) ∧
    get_repo_status 7 (clone_or_update_repo envCloneFail none).1 0 = none ∧
    clone_or_update_repo envCloneTimeout none =
      (some dPartial, .error "Git operation timed out") ∧
    (clone_or_update_repo envCloneTimeout none).1 ≠ none :=
  ⟨by decide, by decide, by decide, by decide⟩

/-- C2.  On an existing checkout, a sync in which fetch, checkout and
reset all succeed returns `changed = true` iff the commit after the
hard reset differs from the commit read immediately before the reset,
together with the post-reset commit; in particular a second sync
against an unchanged remote returns the same commit and
`changed = false`. -/
theorem clone_or_update_changed_iff (env : GitEnv) (old : RepoDir)
    (hf : env.fetchOutcome = .ok) (hc : env.checkoutOutcome = .ok)
    (hr : env.resetOutcome = .ok) :
    clone_or_update_repo env (some old) =
      (some env.afterReset,
        .ok (env.afterReset.commit,
             env.afterCheckout.commit != env.afterReset.commit)) ∧
    ((env.afterCheckout.commit != env.afterReset.commit) = true ↔
      env.afterCheckout.commit ≠ env.afterReset.commit) ∧
    (∀ env2 : GitEnv, env2.fetchOutcome = .ok →
      env2.checkoutOutcome = .ok → env2.resetOutcome = .ok →
      env2.afterCheckout = env.afterReset →
      env2.afterReset = env.afterReset →
      clone_or_update_repo env2 (some env.afterReset) =
        (some env.afterReset, .ok (env.afterReset.commit, false))) := by
  refine ⟨?_, bne_iff_ne, ?_⟩
  · simp [clone_or_update_repo, hf, hc, hr]
  · intro env2 h1 h2 h3 h4 h5
    simp [clone_or_update_repo, h1, h2, h3, h4, h5]

theorem clone_or_update_changed_iff_witness :
    clone_or_update_repo envMoved (some dOld) =
      (some dNew, .ok ("c2", true)) ∧
    clone_or_update_repo envSame (some dNew) =
      (some dNew, .ok ("c2", false)) := by
  have h := clone_or_update_changed_iff envMoved dOld rfl rfl rfl
  exact ⟨h.1, h.2.2 envSame rfl rfl rfl rfl rfl⟩

/-- C7.  For a bcrypt backend satisfying the adaptive-hash contract,
`verify_token t (hash_token t) = true`; for any other presented string
the verification is `false`; and on any stored value on which
`bcrypt.checkpw` raises (malformed hash), `verify_token` returns
`false` instead of propagating the exception. -/
theorem verify_token_spec (bc : Bcrypt)
    (hrt : ∀ t s : String, bc.checkpw t (bc.hashpw t s) = some true)
    (hdist : ∀ t s u : String, u ≠ t →
      bc.checkpw u (bc.hashpw t s) = some false) :
    (∀ t s : String, verify_token bc t (hash_token bc t s) = true) ∧
    (∀ t s u : String, u ≠ t →
      verify_token bc u (hash_token bc t s) = false) ∧
    (∀ u h : String, bc.checkpw u h = none →
      verify_token bc u h = false) := by
  refine ⟨fun t s => ?_, fun t s u hne => ?_, fun u h hraise => ?_⟩
  · simp [verify_token, hash_token, hrt t s]
  · simp [verify_token, hash_token, hdist t s u hne]
  · simp [verify_token, hraise]

theorem verify_token_spec_witness :
    verify_token bc0 "tok" (hash_token bc0 "tok" "salt") = true ∧
    verify_token bc0 "other" (hash_token bc0 "tok" "salt") = false ∧
    verify_token bc0 "tok" "not-a-valid-hash" = false := by
  obtain ⟨h1, h2, h3⟩ := verify_token_spec bc0 bc0_roundtrip bc0_distinct
  exact ⟨h1 "tok" "salt", h2 "tok" "salt" "other" (by decide),
         h3 "tok" "not-a-valid-hash" rfl⟩

/-- C8.  Both policy validators reject any `config_path` containing a
parent-directory segment with a pure validation error (no filesystem is
involved), and store an accepted path relative: every leading slash is
removed, so the stored value never begins with `/`. -/
theorem validate_config_path_spec (v : String) :
    (containsDotDot v = true →
      validate_config_path v =
        .error "config_path cannot contain .. (path traversal)" ∧
      validate_config_path_update (some v) =
        .error "config_path cannot contain .. (path traversal)") ∧
    (containsDotDot v = false →
      validate_config_path v = .ok (lstripSlashes v) ∧
      validate_config_path_update (some v) = .ok (some (lstripSlashes v)) ∧
      ∀ c, (lstripSlashes v).data.head? = some c → c ≠ '/') := by
  constructor
  · intro h
    exact ⟨by simp [validate_config_path, h],
           by simp [validate_config_path_update, h]⟩
  · intro h
    refine ⟨by simp [validate_config_path, h],
            by simp [validate_config_path_update, h], fun c hc => ?_⟩
    have hd := List.head?_dropWhile_not (fun x => x == '/') v.data
    rw [lstripSlashes] at hc
    simp only [hc] at hd
    simpa using hd

theorem validate_config_path_spec_witness :
    (validate_config_path "nodes/../secret.ps1" =
      .error "config_path cannot contain .. (path traversal)") ∧
    (validate_config_path "/nodes/a.ps1" = .ok "nodes/a.ps1") := by
  refine ⟨((validate_config_path_spec "nodes/../secret.ps1").1 (by decide)).1,
          ?_⟩
  have h := ((validate_config_path_spec "/nodes/a.ps1").2 (by decide)).1
  simpa using h

/-- C3.  An authenticated run report whose referenced policy exists
creates exactly one run record — `started_at` the supplied value when
provided, otherwise the receipt time `now`; `finished_at := now` —
commits `last_status := reported status` and `last_seen_at := now` on
the node, and returns the created run's identifier; when the policy
does not exist the request fails with a 400 client error and, the
session never being committed, the store is unchanged and no run
record is created. -/
theorem report_run_spec (bc : Bcrypt) (node_id : Nat) (run : RunReport)
    (token : String) (now : Nat) (db : DB) (node : Node)
    (hauth : authenticate_node bc node_id token db = .ok node) :
    (∀ pol, db.getPolicy run.policy_id = some pol →
      report_run bc node_id run token now db =
        .ok ({ nodes := db.nodes.map (fun m =>
                 if m.id == node.id then
                   { node with last_seen_at := some now,
                               last_status := some run.status.value }
                 else m),
               policies := db.policies, repos := db.repos,
               runs := db.runs ++
                 [{ id := db.nextRunId, node_id := node.id,
                    policy_id := run.policy_id,
                    git_commit := run.git_commit,
                    started_at := run.started_at.getD now,
                    finished_at := some now,
                    status := run.status.value,
                    summary := run.summary }] },
             { ok := true, run_id := db.nextRunId,
               message := "Run recorded with status: " ++
                 run.status.value })) ∧
    (run.started_at = none → run.started_at.getD now = now) ∧
    (∀ t, run.started_at = some t → run.started_at.getD now = t) ∧
    (db.getPolicy run.policy_id = none →
      report_run bc node_id run token now db =
        .error (.badRequest
          ("Policy with id " ++ toString run.policy_id ++ " not found"))) := by
  refine ⟨fun pol hpol => ?_, fun h => by simp [h], fun t h => by simp [h],
    fun hpol => ?_⟩
  · simp [report_run, hauth, hpol, DB.setNode]
  · simp [report_run, hauth, hpol]

theorem report_run_spec_witness :
    report_run bc0 1 runW "tok" 100 dbW =
      .ok ({ nodes := [{ nodeW with
                         last_seen_at := some 100,
                         last_status := some "success" }],
             policies := [polW], repos := [repoW],
             runs := [{ id := 1, node_id := 1, policy_id := 2,
                        git_commit := some "a1b2c3d", started_at := 100,
                        finished_at := some 100, status := "success",
                        summary := some "all good" }] },
           { ok := true, run_id := 1,
             message := "Run recorded with status: success" }) ∧
    report_run bc0 1 { runW with policy_id := 9 } "tok" 100 dbW =
      .error (.badRequest "Policy with id 9 not found") := by
  have h := report_run_spec bc0 1 runW "tok" 100 dbW nodeW (by decide)
  have h9 := report_run_spec bc0 1 { runW with policy_id := 9 } "tok" 100
    dbW nodeW (by decide)
  refine ⟨?_, ?_⟩
  · have := h.1 polW (by decide)
    simpa using this
  · have := h9.2.2.2 (by decide)
    simpa using this

/-- C10 (implicit).  `report_run` accepts a report for any currently
existing policy even when it is not the reporting node's assigned
policy (or the node has none): the run record is created against the
reported `policy_id` and the node's `last_status` is still overwritten
with the reported status. -/
theorem report_run_cross_policy (bc : Bcrypt) (node_id : Nat)
    (run : RunReport) (token : String) (now : Nat) (db : DB) (node : Node)
    (pol : Policy)
    (hauth : authenticate_node bc node_id token db = .ok node)
    (hpol : db.getPolicy run.policy_id = some pol)
    (hmismatch : node.assigned_policy_id ≠ some run.policy_id) :
    ∃ db1 resp r,
      report_run bc node_id run token now db = .ok (db1, resp) ∧
      db1.runs = db.runs ++ [r] ∧
      r.policy_id = run.policy_id ∧
      r.node_id = node.id ∧
      r.status = run.status.value ∧
      resp.run_id = r.id ∧
      ∀ m ∈ db1.nodes, m.id = node.id →
        m.last_status = some run.status.value := by
  have heq : report_run bc node_id run token now db =
      .ok ({ nodes := db.nodes.map (fun m =>
               if m.id == node.id then
                 { node with last_seen_at := some now,
                             last_status := some run.status.value }
               else m),
             policies := db.policies, repos := db.repos,
             runs := db.runs ++
               [{ id := db.nextRunId, node_id := node.id,
                  policy_id := run.policy_id,
                  git_commit := run.git_commit,
                  started_at := run.started_at.getD now,
                  finished_at := some now,
                  status := run.status.value,
                  summary := run.summary }] },
           { ok := true, run_id := db.nextRunId,
             message := "Run recorded with status: " ++
               run.status.value }) := by
    simp [report_run, hauth, hpol, DB.setNode]
  refine ⟨_, _, _, heq, rfl, rfl, rfl, rfl, rfl, ?_⟩
  intro m hm hid
  obtain ⟨orig, -, rfl⟩ := List.mem_map.mp hm
  by_cases hb : (orig.id == node.id) = true
  · simp [hb]
  · simp only [hb, if_false] at hid ⊢
    exact absurd hid (by simpa using hb)

theorem report_run_cross_policy_witness :
    ∃ db1 resp r,
      report_run bc0 4 runW "tok2" 100 dbU = .ok (db1, resp) ∧
      db1.runs = dbU.runs ++ [r] ∧
      r.policy_id = runW.policy_id ∧
      r.node_id = nodeU.id ∧
      r.status = runW.status.value ∧
      resp.run_id = r.id ∧
      ∀ m ∈ db1.nodes, m.id = nodeU.id →
        m.last_status = some runW.status.value :=
  report_run_cross_policy bc0 4 runW "tok2" 100 dbU nodeU polW
    (by decide) (by decide) (by decide)

/-- C4 (amended).  On an authenticated desired-state query, any broken
link of the chain node → assigned policy → policy → repository gives a
normal `policy_assigned = false` response with no policy, repository,
config path or package locator — never an error; a fully resolved chain
gives `policy_assigned = true` with the policy's branch override when
it is present and non-empty, else the repository's default branch
(Python `or` treats an empty override string as absent). -/
theorem get_desired_state_spec (bc : Bcrypt) (node_id : Nat)
    (token : String) (now : Nat) (url : String) (db : DB) (node : Node)
    (hauth : authenticate_node bc node_id token db = .ok node) :
    (truthyId node.assigned_policy_id = none →
      get_desired_state bc node_id token now url db =
        .ok (db.setNode { node with last_seen_at := some now },
             ⟨false, none, none, none, none, none⟩)) ∧
    (∀ pid, truthyId node.assigned_policy_id = some pid →
      db.getPolicy pid = none →
      get_desired_state bc node_id token now url db =
        .ok (db.setNode { node with last_seen_at := some now },
             ⟨false, none, none, none, none, none⟩)) ∧
    (∀ pid pol, truthyId node.assigned_policy_id = some pid →
      db.getPolicy pid = some pol →
      db.getRepo pol.git_repository_id = none →
      get_desired_state bc node_id token now url db =
        .ok (db.setNode { node with last_seen_at := some now },
             ⟨false, none, none, none, none, none⟩)) ∧
    (∀ pid pol repo, truthyId node.assigned_policy_id = some pid →
      db.getPolicy pid = some pol →
      db.getRepo pol.git_repository_id = some repo →
      get_desired_state bc node_id token now url db =
        .ok (db.setNode { node with last_seen_at := some now },
             { policy_assigned := true,
               policy_id := some pol.id,
               policy_name := some pol.name,
               repository := some
                 { id := repo.id, name := repo.name,
                   branch := pyOrStr pol.branch repo.default_branch },
               config_path := some pol.config_path,
               package_url := some (packageUrl url node_id) }) ∧
      (pol.branch = none →
        pyOrStr pol.branch repo.default_branch = repo.default_branch) ∧
      (∀ s, pol.branch = some s → s ≠ "" →
        pyOrStr pol.branch repo.default_branch = s) ∧
      (pol.branch = some "" →
        pyOrStr pol.branch repo.default_branch = repo.default_branch)) := by
  refine ⟨fun h => ?_, fun pid h hp => ?_, fun pid pol h hp hr => ?_,
    fun pid pol repo h hp hr => ⟨?_, fun hb => ?_, fun s hb hs => ?_,
      fun hb => ?_⟩⟩
  · simp [get_desired_state, hauth, h]
  · simp [get_desired_state, hauth, h, hp]
  · simp [get_desired_state, hauth, h, hp, hr]
  · simp [get_desired_state, hauth, h, hp, hr]
  · simp [pyOrStr, hb]
  · simp [pyOrStr, hb, hs]
  · simp [pyOrStr, hb]

theorem get_desired_state_spec_witness :
    get_desired_state bc0 4 "tok2" 7 "http://srv" dbU =
      .ok (dbU.setNode { nodeU with last_seen_at := some 7 },
           ⟨false, none, none, none, none, none⟩) ∧
    get_desired_state bc0 1 "tok" 7 "http://srv" dbW =
      .ok (dbW.setNode { nodeW with last_seen_at := some 7 },
           { policy_assigned := true,
             policy_id := some 2,
             policy_name := some "baseline",
             repository := some { id := 3, name := "cfg", branch := "prod" },
             config_path := some "nodes/a.ps1",
             package_url :=
               some "http://srv/api/v1/agents/nodes/1/package" }) := by
  have hu := (get_desired_state_spec bc0 4 "tok2" 7 "http://srv" dbU nodeU
    (by decide)).1 (by decide)
  have hw := ((get_desired_state_spec bc0 1 "tok" 7 "http://srv" dbW nodeW
    (by decide)).2.2.2 2 polW repoW (by decide) (by decide) (by decide)).1
  refine ⟨hu, ?_⟩
  rw [hw]
  decide

/-- C4 counterexample to the claim as stated: a fully resolved chain
whose policy carries a present branch override (`some ""`) is answered
with the repository's default branch `"main"`, not the override —
Python's `policy.branch or repo.default_branch` treats the present
empty override as absent. -/
theorem get_desired_state_branch_counterexample :
    polE.branch = some "" ∧
    dbE.getPolicy 2 = some polE ∧
    get_desired_state bc0 1 "tok" 5 "http://srv" dbE =
      .ok (dbE.setNode { nodeW with last_seen_at := some 5 },
           { policy_assigned := true,
             policy_id := some 2,
             policy_name := some "pol",
             repository := some { id := 3, name := "cfg", branch := "main" },
             config_path := some "nodes/a.ps1",
             package_url :=
               some "http://srv/api/v1/agents/nodes/1/package" }) ∧
    "main" ≠ "" := by
  refine ⟨rfl, by decide, ?_, by decide⟩
  decide

/-- C9.  Authenticated heartbeats and desired-state queries update only
the node's `last_seen_at`: `last_status` and every other node field
(name, token hash, assigned policy) keep their values, no run record is
created, and the policy and repository tables are untouched. -/
theorem heartbeat_desired_state_frame (bc : Bcrypt) (node_id : Nat)
    (token : String) (now : Nat) (url : String) (db : DB) (node : Node)
    (hauth : authenticate_node bc node_id token db = .ok node)
    (hkey : ∀ m ∈ db.nodes, m.id = node.id → m = node) :
    heartbeat bc node_id token now db =
      .ok (db.setNode { node with last_seen_at := some now },
           { ok := true, server_time := now, node_id := node.id,
             node_name := node.name }) ∧
    (∃ resp, get_desired_state bc node_id token now url db =
      .ok (db.setNode { node with last_seen_at := some now }, resp)) ∧
    (db.setNode { node with last_seen_at := some now }).runs = db.runs ∧
    (db.setNode { node with last_seen_at := some now }).policies =
      db.policies ∧
    (db.setNode { node with last_seen_at := some now }).repos = db.repos ∧
    { node with last_seen_at := some now } ∈
      (db.setNode { node with last_seen_at := some now }).nodes ∧
    (∀ m1 ∈ (db.setNode { node with last_seen_at := some now }).nodes,
      ∃ m ∈ db.nodes,
        m1.name = m.name ∧
        m1.node_token_hash = m.node_token_hash ∧
        m1.assigned_policy_id = m.assigned_policy_id ∧
        m1.last_status = m.last_status) := by
  have hmem : node ∈ db.nodes := by
    have := hauth
    unfold authenticate_node DB.getNode at this
    cases hfind : db.nodes.find? (fun n => n.id == node_id) with
    | none => rw [hfind] at this; exact absurd this (by simp)
    | some n =>
      rw [hfind] at this
      have hn : n = node := by
        by_cases hv : verify_token bc token n.node_token_hash
        · simpa [hv] using this
        · simp [hv] at this
      exact hn ▸ List.mem_of_find?_eq_some hfind
  refine ⟨by simp [heartbeat, hauth], ?_, rfl, rfl, rfl, ?_, ?_⟩
  · rcases htr : truthyId node.assigned_policy_id with _ | pid
    · exact ⟨⟨false, none, none, none, none, none⟩,
        by simp [get_desired_state, hauth, htr]⟩
    · rcases hp : db.getPolicy pid with _ | pol
      · exact ⟨⟨false, none, none, none, none, none⟩,
          by simp [get_desired_state, hauth, htr, hp]⟩
      · rcases hr : db.getRepo pol.git_repository_id with _ | repo
        · exact ⟨⟨false, none, none, none, none, none⟩,
            by simp [get_desired_state, hauth, htr, hp, hr]⟩
        · exact ⟨⟨true, some pol.id, some pol.name,
              some ⟨repo.id, repo.name,
                pyOrStr pol.branch repo.default_branch⟩,
              some pol.config_path, some (packageUrl url node_id)⟩,
            by simp [get_desired_state, hauth, htr, hp, hr]⟩
  · exact List.mem_map.mpr ⟨node, hmem, by simp⟩
  · intro m1 hm1
    obtain ⟨orig, horig, rfl⟩ := List.mem_map.mp hm1
    by_cases hb : (orig.id == node.id) = true
    · have : orig = node := hkey orig horig (by simpa using hb)
      subst this
      exact ⟨orig, horig, by simp [hb]⟩
    · exact ⟨orig, horig, by simp [hb]⟩

theorem heartbeat_desired_state_frame_witness :
    heartbeat bc0 4 "tok2" 9 dbU =
      .ok (dbU.setNode { nodeU with last_seen_at := some 9 },
           { ok := true, server_time := 9, node_id := 4,
             node_name := "web02" }) ∧
    (∃ resp, get_desired_state bc0 4 "tok2" 9 "http://srv" dbU =
      .ok (dbU.setNode { nodeU with last_seen_at := some 9 }, resp)) ∧
    (dbU.setNode { nodeU with last_seen_at := some 9 }).runs = dbU.runs := by
  have h := heartbeat_desired_state_frame bc0 4 "tok2" 9 "http://srv" dbU
    nodeU (by decide) (by decide)
  exact ⟨h.1, h.2.1, h.2.2.1⟩

/-! ### Packaging helper lemmas -/

theorem entryNames_append (a b : ZipEntries) :
    entryNames (a ++ b) = entryNames a ++ entryNames b :=
  List.map_append _ _ _

theorem add_colocated_scripts_cons (f : String × String)
    (fs : List (String × String)) (cfgDir : String) (acc : ZipEntries) :
    add_colocated_scripts (f :: fs) cfgDir acc =
      add_colocated_scripts fs cfgDir
        (if parentDir f.1 == cfgDir && strEndsWith f.1 ".ps1" &&
            !(acc.any (fun e => e.1 == f.1)) then acc ++ [f] else acc) :=
  rfl

/-- The colocated-script pass only appends: names already in the
archive stay. -/
theorem mem_add_colocated_scripts (cfgDir s : String) :
    ∀ (fs : List (String × String)) (acc : ZipEntries),
      s ∈ entryNames acc →
      s ∈ entryNames (add_colocated_scripts fs cfgDir acc) := by
  intro fs
  induction fs with
  | nil => exact fun acc h => h
  | cons f fs ih =>
    intro acc h
    rw [add_colocated_scripts_cons]
    split
    · exact ih _ (by rw [entryNames_append]; exact List.mem_append_left _ h)
    · exact ih _ h

/-- Every `.ps1` file colocated with the config ends up in the
archive: either it was already there or the pass appends it. -/
theorem mem_add_colocated_scripts_self (cfgDir : String)
    (f : String × String) (hdir : parentDir f.1 = cfgDir)
    (hps : strEndsWith f.1 ".ps1" = true) :
    ∀ (fs : List (String × String)), f ∈ fs → ∀ acc : ZipEntries,
      f.1 ∈ entryNames (add_colocated_scripts fs cfgDir acc) := by
  intro fs
  induction fs with
  | nil => intro hf; cases hf
  | cons g fs ih =>
    intro hf acc
    rw [add_colocated_scripts_cons]
    rcases List.mem_cons.mp hf with rfl | hf
    · cases hin : (acc.any (fun e => e.1 == f.1)) with
      | true =>
        have hmem : f.1 ∈ entryNames acc := by
          obtain ⟨e, he, heq⟩ := List.any_eq_true.mp hin
          exact List.mem_map.mpr ⟨e, he, by simpa using heq⟩
        split
        · exact mem_add_colocated_scripts _ _ _ _
            (by rw [entryNames_append]; exact List.mem_append_left _ hmem)
        · exact mem_add_colocated_scripts _ _ _ _ hmem
      | false =>
        have hcond : (parentDir f.1 == cfgDir && strEndsWith f.1 ".ps1" &&
            !false) = true := by
          simp [hdir, hps]
        rw [if_pos hcond]
        refine mem_add_colocated_scripts _ _ _ _ ?_
        rw [entryNames_append]
        exact List.mem_append_right _ (by simp [entryNames])
    · exact ih hf _

/-- The colocated-script pass never duplicates a name that is already
present: its occurrence count is preserved. -/
theorem count_add_colocated_scripts (cfgDir s : String) :
    ∀ (fs : List (String × String)) (acc : ZipEntries),
      s ∈ entryNames acc →
      (entryNames (add_colocated_scripts fs cfgDir acc)).count s =
        (entryNames acc).count s := by
  intro fs
  induction fs with
  | nil => exact fun acc _ => rfl
  | cons f fs ih =>
    intro acc h
    rw [add_colocated_scripts_cons]
    by_cases hc : (parentDir f.1 == cfgDir && strEndsWith f.1 ".ps1" &&
        !(acc.any (fun e => e.1 == f.1))) = true
    · rw [if_pos hc]
      have h3 : (acc.any (fun e => e.1 == f.1)) = false := by
        have := ((Bool.and_eq_true _ _).mp hc).2
        simpa using this
      have hnotin : f.1 ∉ entryNames acc := by
        intro hmm
        obtain ⟨e, he, hfst⟩ := List.mem_map.mp hmm
        have : acc.any (fun e => e.1 == f.1) = true :=
          List.any_eq_true.mpr ⟨e, he, by simp [hfst]⟩
        rw [this] at h3
        cases h3
      have hne : f.1 ≠ s := fun hh => hnotin (hh ▸ h)
      rw [ih _ (by rw [entryNames_append]; exact List.mem_append_left _ h)]
      rw [entryNames_append, List.count_append]
      have : (entryNames [f]).count s = 0 := by
        rw [List.count_eq_zero]
        simpa [entryNames] using fun hh => hne hh.symm
      omega
    · rw [if_neg hc]
      exact ih _ h

theorem add_support_dirs_cons (files : List (String × String))
    (d : String) (ds : List String) (acc : ZipEntries) :
    add_support_dirs files (d :: ds) acc =
      add_support_dirs files ds
        (if files.any (fun f => isUnder d f.1) then
          acc ++ add_directory_to_zip files d
        else acc) :=
  rfl

/-- The support-directory pass only appends: names already in the
archive stay. -/
theorem mem_add_support_dirs (files : List (String × String)) (s : String) :
    ∀ (ds : List String) (acc : ZipEntries),
      s ∈ entryNames acc →
      s ∈ entryNames (add_support_dirs files ds acc) := by
  intro ds
  induction ds with
  | nil => exact fun acc h => h
  | cons d ds ih =>
    intro acc h
    rw [add_support_dirs_cons]
    split
    · exact ih _ (by rw [entryNames_append]; exact List.mem_append_left _ h)
    · exact ih _ h

/-- Every non-VCS file under a support directory of the list is in the
archive after the support-directory pass. -/
theorem mem_add_support_dirs_of_under (files : List (String × String))
    (f : String × String) (hfmem : f ∈ files)
    (hgit : hasGitPart f.1 = false) :
    ∀ (ds : List String), ∀ d ∈ ds, isUnder d f.1 = true →
      ∀ acc : ZipEntries,
        f.1 ∈ entryNames (add_support_dirs files ds acc) := by
  intro ds
  induction ds with
  | nil => intro d hd; cases hd
  | cons d0 ds ih =>
    intro d hd hunder acc
    rw [add_support_dirs_cons]
    rcases List.mem_cons.mp hd with rfl | hd
    · have hany : files.any (fun x => isUnder d x.1) = true :=
        List.any_eq_true.mpr ⟨f, hfmem, hunder⟩
      rw [if_pos hany]
      refine mem_add_support_dirs _ _ _ _ ?_
      rw [entryNames_append]
      refine List.mem_append_right _ ?_
      exact List.mem_map.mpr
        ⟨f, List.mem_filter.mpr ⟨hfmem, by simp [hunder, hgit]⟩, rfl⟩
    · exact ih d hd hunder _

/-- The support-directory pass never adds a name that lies under none
of its directories: such a name's occurrence count is preserved. -/
theorem count_add_support_dirs (files : List (String × String))
    (s : String) :
    ∀ (ds : List String), (∀ d ∈ ds, isUnder d s = false) →
      ∀ acc : ZipEntries,
        (entryNames (add_support_dirs files ds acc)).count s =
          (entryNames acc).count s := by
  intro ds
  induction ds with
  | nil => exact fun _ acc => rfl
  | cons d ds ih =>
    intro hds acc
    rw [add_support_dirs_cons]
    split
    · rw [ih (fun d' hd' => hds d' (List.mem_cons_of_mem _ hd'))]
      rw [entryNames_append, List.count_append]
      have hzero : (entryNames (add_directory_to_zip files d)).count s = 0 := by
        rw [List.count_eq_zero]
        intro hmm
        obtain ⟨e, he, hfst⟩ := List.mem_map.mp hmm
        have hpred := (List.mem_filter.mp he).2
        have h1 : isUnder d e.1 = true := ((Bool.and_eq_true _ _).mp hpred).1
        rw [hfst] at h1
        rw [hds d (List.mem_cons_self _ _)] at h1
        cases h1
      omega
    · exact ih (fun d' hd' => hds d' (List.mem_cons_of_mem _ hd')) acc

/-- C5.  A selective build whose `configPath` resolves to a single
`.ps1` file produces an archive containing that file, every non-VCS
file under the sibling `baselines/` support directory, and every
colocated `.ps1` script, the colocated pass de-duplicating against
entries already included (so the config file, a sibling of itself,
appears exactly once); a `configPath` resolving to nothing inside the
working copy fails with a `RepoServiceError` (missing path), producing
no archive at all. -/
theorem create_package_selective_spec (d : RepoDir) (cfg now : String) :
    (strEndsWith cfg ".ps1" = true →
      ∀ c : String, (cfg, c) ∈ d.files →
      ∃ es, create_package_zip (some d) cfg now false = .ok (es, d.commit) ∧
        cfg ∈ entryNames es ∧
        (∀ f ∈ d.files, isUnder "baselines" f.1 = true →
          hasGitPart f.1 = false → f.1 ∈ entryNames es) ∧
        (∀ f ∈ d.files, parentDir f.1 = parentDir cfg →
          strEndsWith f.1 ".ps1" = true → f.1 ∈ entryNames es) ∧
        ((∀ dd ∈ related_dirs, isUnder dd cfg = false) →
          (entryNames es).count cfg = 1)) ∧
    (pathExists d.files cfg = false →
      create_package_zip (some d) cfg now false =
        .error ("Config path not found: " ++ cfg)) := by
  constructor
  · intro hps c hmem
    have hex : pathExists d.files cfg = true := by
      unfold pathExists
      exact List.any_eq_true.mpr ⟨(cfg, c), hmem, by simp⟩
    have hsome : (d.files.find? (fun f => f.1 == cfg)).isSome :=
      List.find?_isSome.mpr ⟨(cfg, c), hmem, by simp⟩
    obtain ⟨p, hp⟩ := Option.isSome_iff_exists.mp hsome
    have hp1 : p.1 = cfg := by simpa using List.find?_some hp
    have hpay : package_payload d cfg false =
        .ok (add_related_directories d.files cfg [p]) := by
      simp [package_payload, hex, hp, hps]
    refine ⟨add_related_directories d.files cfg [p] ++
        [(metaName, metaContent d.commit now cfg)], ?_, ?_, ?_, ?_, ?_⟩
    · simp [create_package_zip, hpay, Except.map]
    · rw [entryNames_append]
      refine List.mem_append_left _ ?_
      unfold add_related_directories
      refine mem_add_colocated_scripts _ _ _ _ ?_
      exact mem_add_support_dirs _ _ _ _ (by simp [entryNames, hp1])
    · intro f hf hunder hgit
      rw [entryNames_append]
      refine List.mem_append_left _ ?_
      unfold add_related_directories
      refine mem_add_colocated_scripts _ _ _ _ ?_
      exact mem_add_support_dirs_of_under d.files f hf hgit related_dirs
        "baselines" (by simp [related_dirs]) hunder _
    · intro f hf hpar hfps
      rw [entryNames_append]
      refine List.mem_append_left _ ?_
      unfold add_related_directories
      exact mem_add_colocated_scripts_self (parentDir cfg) f hpar hfps
        d.files hf _
    · intro hsib
      rw [entryNames_append, List.count_append]
      have hmeta :
          (entryNames [(metaName, metaContent d.commit now cfg)]).count cfg
            = 0 := by
        rw [List.count_eq_zero]
        intro hmm
        have hcm : cfg = metaName := by simpa [entryNames] using hmm
        rw [hcm] at hps
        exact absurd hps (by decide)
      have hrel :
          (entryNames (add_related_directories d.files cfg [p])).count cfg
            = 1 := by
        unfold add_related_directories
        rw [count_add_colocated_scripts _ _ d.files _
          (mem_add_support_dirs _ _ _ _ (by simp [entryNames, hp1]))]
        rw [count_add_support_dirs d.files cfg related_dirs hsib]
        simp [entryNames, hp1]
      omega
  · intro h
    simp [create_package_zip, package_payload, h, Except.map]

theorem create_package_selective_spec_witness :
    (∃ es, create_package_zip (some dPack) "nodes/a.ps1" "T" false =
        .ok (es, dPack.commit) ∧
      "nodes/a.ps1" ∈ entryNames es ∧
      (∀ f ∈ dPack.files, isUnder "baselines" f.1 = true →
        hasGitPart f.1 = false → f.1 ∈ entryNames es) ∧
      (∀ f ∈ dPack.files, parentDir f.1 = parentDir "nodes/a.ps1" →
        strEndsWith f.1 ".ps1" = true → f.1 ∈ entryNames es) ∧
      ((∀ dd ∈ related_dirs, isUnder dd "nodes/a.ps1" = false) →
        (entryNames es).count "nodes/a.ps1" = 1)) ∧
    create_package_zip (some dPack) "missing.ps1" "T" false =
      .error ("Config path not found: " ++ "missing.ps1") :=
  ⟨(create_package_selective_spec dPack "nodes/a.ps1" "T").1
      (by decide) "A" (by decide),
   (create_package_selective_spec dPack "missing.ps1" "T").2 (by decide)⟩

/-- C6 (amended).  Every successful build, in full and in selective
mode, appends exactly one manifest entry named `_opentune_meta.txt` as
the archive's final entry, recording exactly
`commit=<hash>`, `packaged_at=<timestamp>`, `config_path=<path>`, one
per line; that entry is the unique one carrying the manifest name
provided no payload file of the working copy is itself archived under
the name `_opentune_meta.txt`. -/
theorem create_package_manifest_spec (fs : Option RepoDir)
    (cfg now : String) (mode : Bool) (es : ZipEntries) (c : String)
    (h : create_package_zip fs cfg now mode = .ok (es, c)) :
    ∃ d payload, fs = some d ∧ c = d.commit ∧
      es = payload ++ [(metaName, metaContent d.commit now cfg)] ∧
      (metaName ∉ entryNames payload →
        (entryNames es).count metaName = 1) := by
  cases fs with
  | none => simp [create_package_zip] at h
  | some d =>
    simp only [create_package_zip] at h
    cases hpl : package_payload d cfg mode with
    | error e => rw [hpl] at h; simp [Except.map] at h
    | ok es0 =>
      rw [hpl] at h
      simp only [Except.map] at h
      injection h with hpair
      have hes : es0 ++ [(metaName, metaContent d.commit now cfg)] = es :=
        congrArg Prod.fst hpair
      have hc : d.commit = c := congrArg Prod.snd hpair
      refine ⟨d, es0, rfl, hc.symm, hes.symm, ?_⟩
      intro hnot
      rw [← hes, entryNames_append, List.count_append]
      rw [List.count_eq_zero.mpr hnot]
      simp [entryNames]

theorem create_package_manifest_spec_witness :
    ∃ d payload, (some dPack : Option RepoDir) = some d ∧
      ("c1" : String) = d.commit ∧
      esFullW = payload ++ [(metaName, metaContent d.commit "T" "z")] ∧
      (metaName ∉ entryNames payload →
        (entryNames esFullW).count metaName = 1) :=
  create_package_manifest_spec (some dPack) "z" "T" true esFullW "c1"
    (by decide)

/-- C6 counterexample to the claim as stated: a working copy whose tree
contains a root file named `_opentune_meta.txt` yields (in full mode) an
archive with two entries of the manifest's fixed name, not exactly
one. -/
theorem create_package_manifest_counterexample :
    create_package_zip (some dMetaClash) "x.ps1" "T0" true =
      .ok ([("_opentune_meta.txt", "payload file"),
            (metaName, metaContent "c9" "T0" "x.ps1")], "c9") ∧
    (entryNames [("_opentune_meta.txt", "payload file"),
        (metaName, metaContent "c9" "T0" "x.ps1")]).count metaName = 2 ∧
    (2 : Nat) ≠ 1 :=
  ⟨by decide, by decide, by decide⟩

end OpenTune
